import Mathlib

/-!
Shallow embedding of `src/src/main.c` of groupscholar-retention-watch.

C `double` values are modelled as `ℚ` (exact arithmetic over the decimal
literals appearing in the source), C `int` counters as `ℤ`/`ℕ`.  The libc
`qsort` calls are modelled relationally (any permutation of the input that is
sorted with respect to the comparator), since the C standard leaves the order
of elements that compare equal unspecified.
-/

/-- Mirror of the C struct `Scholar` (main.c lines 8–20). -/
structure Scholar where
  id : String
  name : String
  cohort : String
  days_inactive : ℚ
  attendance_rate : ℚ
  engagement_score : ℚ
  gpa : ℚ
  last_contact_days : ℚ
  survey_score : ℚ
  open_flags : ℤ
  risk_score : ℚ
deriving DecidableEq, Repr

/-- Mirror of the C struct `CohortSummary` (main.c lines 22–29). -/
structure CohortSummary where
  name : String
  total : ℕ
  high : ℕ
  medium : ℕ
  low : ℕ
  avg_risk : ℚ
deriving DecidableEq, Repr

/-- Mirror of the C struct `Driver` (main.c lines 31–34). -/
structure Driver where
  label : String
  value : ℚ
deriving DecidableEq, Repr

/-- Mirror of `clamp` (main.c lines 45–49). -/
def clamp (v min max : ℚ) : ℚ :=
  if v < min then min
  else if max < v then max
  else v

/-- Mirror of `compute_risk` (main.c lines 61–76). -/
def compute_risk (s : Scholar) : ℚ :=
  let gpa_gap := clamp (4 - s.gpa) 0 4
  let attendance_gap := clamp (100 - s.attendance_rate) 0 100
  let engagement_gap := clamp (100 - s.engagement_score) 0 100
  let survey_gap := clamp (100 - s.survey_score) 0 100
  let score :=
    s.days_inactive * 0.6
    + s.last_contact_days * 0.4
    + attendance_gap * 0.35
    + engagement_gap * 0.25
    + gpa_gap * 12.5
    + survey_gap * 0.15
    + (s.open_flags : ℚ) * 6
  clamp score 0 100

/-- Mirror of `risk_tier` (main.c lines 130–134). -/
def risk_tier (score : ℚ) : String :=
  if 75 ≤ score then "high"
  else if 50 ≤ score then "medium"
  else "low"

/-- Mirror of `action_hint` (main.c lines 136–143). -/
def action_hint (s : Scholar) : String :=
  if 30 ≤ s.days_inactive then "re-engage outreach"
  else if s.attendance_rate < 70 then "attendance support"
  else if s.gpa < 2.5 then "academic support"
  else if 0 < s.open_flags then "resolve open flags"
  else if s.engagement_score < 60 then "engagement nudge"
  else "lightweight check-in"

/-- The record of the spec's worked example (§8): days_inactive=40,
attendance_rate=50, engagement_score=80, gpa=3.0, last_contact_days=10,
survey_score=90, open_flags=1.  The `risk_score` field is the value main.c
attaches at line 279. -/
def exampleScholar : Scholar :=
  { id := "s-1", name := "Example", cohort := "alpha"
    days_inactive := 40, attendance_rate := 50, engagement_score := 80
    gpa := 3.0, last_contact_days := 10, survey_score := 90
    open_flags := 1, risk_score := 70.5 }

lemma clamp_nonneg_le (v min max : ℚ) (h : min ≤ max) :
    min ≤ clamp v min max ∧ clamp v min max ≤ max := by
  unfold clamp
  split_ifs <;> constructor <;> linarith

lemma clamp_le_clamp {a b : ℚ} (min max : ℚ) (hmm : min ≤ max) (h : a ≤ b) :
    clamp a min max ≤ clamp b min max := by
  unfold clamp
  split_ifs <;> linarith

/-- Claim C1: for every record (all rationals are finite), the risk score
computed by `compute_risk` lies in the closed interval [0, 100]. -/
theorem compute_risk_bounded (s : Scholar) :
    0 ≤ compute_risk s ∧ compute_risk s ≤ 100 := by
  unfold compute_risk
  exact clamp_nonneg_le _ 0 100 (by norm_num)

/-- Claim C2: on the spec's worked example record the risk model returns
exactly 70.5, that score's tier is "medium", and the recommended action is
"re-engage outreach". -/
theorem example_record_evaluates :
    compute_risk exampleScholar = 70.5
      ∧ risk_tier (compute_risk exampleScholar) = "medium"
      ∧ action_hint exampleScholar = "re-engage outreach" := by
  have h : compute_risk exampleScholar = 70.5 := by
    norm_num [compute_risk, clamp, exampleScholar]
  refine ⟨h, ?_, ?_⟩
  · rw [h]; norm_num [risk_tier]
  · norm_num [action_hint, exampleScholar]

/-- Claim C7: the recommended action is decided by the ordered decision list
with first match winning: days_inactive ≥ 30 ⇒ "re-engage outreach", else
attendance_rate < 70 ⇒ "attendance support", else gpa < 2.5 ⇒ "academic
support", else open_flags > 0 ⇒ "resolve open flags", else
engagement_score < 60 ⇒ "engagement nudge", else "lightweight check-in". -/
theorem action_hint_decision_list (s : Scholar) :
    (30 ≤ s.days_inactive → action_hint s = "re-engage outreach")
    ∧ (s.days_inactive < 30 → s.attendance_rate < 70 →
        action_hint s = "attendance support")
    ∧ (s.days_inactive < 30 → 70 ≤ s.attendance_rate → s.gpa < 2.5 →
        action_hint s = "academic support")
    ∧ (s.days_inactive < 30 → 70 ≤ s.attendance_rate → 2.5 ≤ s.gpa →
        0 < s.open_flags → action_hint s = "resolve open flags")
    ∧ (s.days_inactive < 30 → 70 ≤ s.attendance_rate → 2.5 ≤ s.gpa →
        s.open_flags ≤ 0 → s.engagement_score < 60 →
        action_hint s = "engagement nudge")
    ∧ (s.days_inactive < 30 → 70 ≤ s.attendance_rate → 2.5 ≤ s.gpa →
        s.open_flags ≤ 0 → 60 ≤ s.engagement_score →
        action_hint s = "lightweight check-in") := by
  refine ⟨?_, ?_, ?_, ?_, ?_, ?_⟩ <;>
    · intros
      unfold action_hint
      split_ifs <;> first | rfl | linarith

/-- Witness for C7: the decision list applied to the worked example, whose
days_inactive is 40 ≥ 30. -/
theorem action_hint_decision_list_witness :
    action_hint exampleScholar = "re-engage outreach" :=
  (action_hint_decision_list exampleScholar).1 (by norm_num [exampleScholar])

/-- Claim C8: the risk score is monotonic non-decreasing in every badness
direction of each signal: increasing days_inactive, last_contact_days or
open_flags (all else fixed) never decreases the score, and decreasing gpa,
attendance_rate, engagement_score or survey_score never decreases it. -/
theorem compute_risk_monotone :
    (∀ (s : Scholar) (a b : ℚ), a ≤ b →
      compute_risk { s with days_inactive := a }
        ≤ compute_risk { s with days_inactive := b })
    ∧ (∀ (s : Scholar) (a b : ℚ), a ≤ b →
      compute_risk { s with last_contact_days := a }
        ≤ compute_risk { s with last_contact_days := b })
    ∧ (∀ (s : Scholar) (a b : ℤ), a ≤ b →
      compute_risk { s with open_flags := a }
        ≤ compute_risk { s with open_flags := b })
    ∧ (∀ (s : Scholar) (a b : ℚ), b ≤ a →
      compute_risk { s with gpa := a }
        ≤ compute_risk { s with gpa := b })
    ∧ (∀ (s : Scholar) (a b : ℚ), b ≤ a →
      compute_risk { s with attendance_rate := a }
        ≤ compute_risk { s with attendance_rate := b })
    ∧ (∀ (s : Scholar) (a b : ℚ), b ≤ a →
      compute_risk { s with engagement_score := a }
        ≤ compute_risk { s with engagement_score := b })
    ∧ (∀ (s : Scholar) (a b : ℚ), b ≤ a →
      compute_risk { s with survey_score := a }
        ≤ compute_risk { s with survey_score := b }) := by
  refine ⟨?_, ?_, ?_, ?_, ?_, ?_, ?_⟩ <;>
    · intro s a b h
      unfold compute_risk
      apply clamp_le_clamp 0 100 (by norm_num)
      simp only
      first
      | · have := mul_le_mul_of_nonneg_right h (by norm_num : (0:ℚ) ≤ 0.6)
          linarith
      | · have := mul_le_mul_of_nonneg_right h (by norm_num : (0:ℚ) ≤ 0.4)
          linarith
      | · have hc : (a : ℚ) ≤ (b : ℚ) := Int.cast_le.mpr h
          have := mul_le_mul_of_nonneg_right hc (by norm_num : (0:ℚ) ≤ 6)
          linarith
      | · have hg := clamp_le_clamp 0 4 (by norm_num)
            (show (4:ℚ) - a ≤ 4 - b by linarith)
          have := mul_le_mul_of_nonneg_right hg (by norm_num : (0:ℚ) ≤ 12.5)
          linarith
      | · have hg := clamp_le_clamp 0 100 (by norm_num)
            (show (100:ℚ) - a ≤ 100 - b by linarith)
          have h35 := mul_le_mul_of_nonneg_right hg (by norm_num : (0:ℚ) ≤ 0.35)
          have h25 := mul_le_mul_of_nonneg_right hg (by norm_num : (0:ℚ) ≤ 0.25)
          have h15 := mul_le_mul_of_nonneg_right hg (by norm_num : (0:ℚ) ≤ 0.15)
          first
          | · linarith [h35]
          | · linarith [h25]
          | · linarith [h15]

/-- Witness for C8: monotonicity in days_inactive at 0 ≤ 1 on the worked
example record. -/
theorem compute_risk_monotone_witness :
    compute_risk { exampleScholar with days_inactive := 0 }
      ≤ compute_risk { exampleScholar with days_inactive := 1 } :=
  compute_risk_monotone.1 exampleScholar 0 1 (by norm_num)

/-- The ordering that `compare_risk_desc` (main.c lines 145–151) induces:
`a` may come before `b` exactly when `b`'s risk_score is ≤ `a`'s. -/
def riskGE (a b : Scholar) : Prop := b.risk_score ≤ a.risk_score

instance : DecidableRel riskGE :=
  fun a b => inferInstanceAs (Decidable (b.risk_score ≤ a.risk_score))

instance : IsTotal Scholar riskGE := ⟨fun a b => le_total b.risk_score a.risk_score⟩

instance : IsTrans Scholar riskGE := ⟨fun _ _ _ hab hbc => le_trans hbc hab⟩

instance : IsRefl Scholar riskGE := ⟨fun a => le_refl a.risk_score⟩

/-- Model of the `qsort(scholars, count, sizeof(Scholar), compare_risk_desc)`
call (main.c line 303): `output` is a possible result exactly when it is a
permutation of `input` that is non-increasing in risk_score.  The C standard
leaves the relative order of elements that compare equal unspecified, so the
call is modelled as this relation rather than as one specific function. -/
def sortsByRiskDesc (input output : List Scholar) : Prop :=
  output.Perm input ∧ output.Sorted riskGE

/-- Claim C4 as stated: every possible result of the scholar sort keeps
elements of equal risk_score in their input order (stability), phrased as the
standard filter characterisation. -/
def rankerStableClaim : Prop :=
  ∀ (input output : List Scholar), sortsByRiskDesc input output →
    ∀ q : ℚ, output.filter (fun s => s.risk_score == q)
      = input.filter (fun s => s.risk_score == q)

/-- A scholar with risk_score 50 named "a". -/
def scholarA : Scholar :=
  { id := "a", name := "A", cohort := "c"
    days_inactive := 0, attendance_rate := 100, engagement_score := 100
    gpa := 4, last_contact_days := 0, survey_score := 100
    open_flags := 0, risk_score := 50 }

/-- A scholar with risk_score 50 named "b". -/
def scholarB : Scholar :=
  { id := "b", name := "B", cohort := "c"
    days_inactive := 0, attendance_rate := 100, engagement_score := 100
    gpa := 4, last_contact_days := 0, survey_score := 100
    open_flags := 0, risk_score := 50 }

/-- Counterexample for C4: on the input [scholarA, scholarB], both of risk 50,
the swapped list [scholarB, scholarA] is also a legal qsort result (it is a
sorted permutation), and it does not retain the input order of the tied
elements.  qsort gives no stability guarantee. -/
theorem ranker_stability_counterexample : ¬ rankerStableClaim := by
  intro h
  have hperm : ([scholarB, scholarA] : List Scholar).Perm [scholarA, scholarB] :=
    List.Perm.swap scholarA scholarB []
  have hsorted : ([scholarB, scholarA] : List Scholar).Sorted riskGE := by
    simp [List.sorted_cons, riskGE, scholarA, scholarB]
  have h50 := h [scholarA, scholarB] [scholarB, scholarA] ⟨hperm, hsorted⟩ 50
  simp [List.filter, scholarA, scholarB] at h50

/-- Claim C4 (amended): the scholar sort orders by risk_score descending —
every possible qsort output is a permutation of the input whose risk_scores
are non-increasing along the list, and at least one such output exists — but
the relative order of scholars with equal risk_score is not guaranteed. -/
theorem ranker_orders_desc :
    (∀ input : List Scholar, ∃ output, sortsByRiskDesc input output)
    ∧ (∀ (input output : List Scholar), sortsByRiskDesc input output →
        output.Perm input
        ∧ ∀ (i j : Fin output.length), i ≤ j →
            (output.get j).risk_score ≤ (output.get i).risk_score) := by
  constructor
  · intro input
    exact ⟨List.insertionSort riskGE input,
      List.perm_insertionSort riskGE input,
      List.sorted_insertionSort riskGE input⟩
  · rintro input output ⟨hperm, hsorted⟩
    exact ⟨hperm, fun i j hij => hsorted.rel_get_of_le hij⟩

/-- Witness for C4: the singleton list sorts to itself and the theorem yields
its permutation property there. -/
theorem ranker_orders_desc_witness :
    ([exampleScholar] : List Scholar).Perm [exampleScholar] :=
  ((ranker_orders_desc.2 [exampleScholar] [exampleScholar])
    ⟨List.Perm.refl _, List.sorted_singleton _⟩).1

/-- The seven additive terms built by `format_drivers` (main.c lines 86–101),
in their fixed declaration order: inactivity, contact gap, attendance,
engagement, gpa, survey, open flags. -/
def driverTerms (s : Scholar) : List Driver :=
  let gpa_gap := clamp (4 - s.gpa) 0 4
  let attendance_gap := clamp (100 - s.attendance_rate) 0 100
  let engagement_gap := clamp (100 - s.engagement_score) 0 100
  let survey_gap := clamp (100 - s.survey_score) 0 100
  [ ⟨"inactivity", s.days_inactive * 0.6⟩,
    ⟨"contact gap", s.last_contact_days * 0.4⟩,
    ⟨"attendance", attendance_gap * 0.35⟩,
    ⟨"engagement", engagement_gap * 0.25⟩,
    ⟨"gpa", gpa_gap * 12.5⟩,
    ⟨"survey", survey_gap * 0.15⟩,
    ⟨"open flags", (s.open_flags : ℚ) * 6⟩ ]

/-- The drivers array `format_drivers` actually collects (main.c lines
103–109): the sequence of `if (term > 0.1) drivers[count++] = ...` statements
keeps, in declaration order, exactly the terms whose value exceeds 0.1. -/
def qualifyingDrivers (s : Scholar) : List Driver :=
  (driverTerms s).filter (fun d => decide (0.1 < d.value))

/-- `format_drivers` prints the sentinel "stable" exactly when `count == 0`
(main.c lines 111–114). -/
def stableSentinel (s : Scholar) : Bool :=
  (qualifyingDrivers s).isEmpty

/-- The ordering that `compare_driver_desc` (main.c lines 78–84) induces. -/
def driverGE (a b : Driver) : Prop := b.value ≤ a.value

instance : DecidableRel driverGE :=
  fun a b => inferInstanceAs (Decidable (b.value ≤ a.value))

instance : IsTotal Driver driverGE := ⟨fun a b => le_total b.value a.value⟩

instance : IsTrans Driver driverGE := ⟨fun _ _ _ hab hbc => le_trans hbc hab⟩

instance : IsRefl Driver driverGE := ⟨fun a => le_refl a.value⟩

/-- Model of the `qsort(drivers, count, sizeof(Driver), compare_driver_desc)`
call (main.c line 116), relational for the same reason as the scholar sort. -/
def sortsDriversDesc (input output : List Driver) : Prop :=
  output.Perm input ∧ output.Sorted driverGE

/-- Claim C5 as stated: every possible result of the driver sort keeps terms
of equal magnitude in their declaration order (the order of
`qualifyingDrivers`), phrased as the standard filter characterisation. -/
def driverTieOrderClaim : Prop :=
  ∀ (s : Scholar) (output : List Driver),
    sortsDriversDesc (qualifyingDrivers s) output →
    ∀ q : ℚ, output.filter (fun d => d.value == q)
      = (qualifyingDrivers s).filter (fun d => d.value == q)

/-- A scholar whose inactivity term (1 × 0.6) and contact-gap term
(1.5 × 0.4) are both 0.6: two qualifying drivers of equal magnitude. -/
def tiedDriversScholar : Scholar :=
  { id := "t", name := "T", cohort := "c"
    days_inactive := 1, attendance_rate := 100, engagement_score := 100
    gpa := 4, last_contact_days := 1.5, survey_score := 100
    open_flags := 0, risk_score := 1.2 }

/-- Counterexample for C5: for `tiedDriversScholar` the qualifying drivers
are [inactivity 0.6, contact gap 0.6]; the swapped list is also a legal qsort
result (a sorted permutation) and it violates declaration order for the tie.
qsort gives no stability guarantee. -/
theorem driver_tie_order_counterexample : ¬ driverTieOrderClaim := by
  intro h
  have hq : qualifyingDrivers tiedDriversScholar
      = [⟨"inactivity", 0.6⟩, ⟨"contact gap", 0.6⟩] := by
    norm_num [qualifyingDrivers, driverTerms, clamp, tiedDriversScholar,
      List.filter]
  have hperm : ([⟨"contact gap", 0.6⟩, ⟨"inactivity", 0.6⟩] : List Driver).Perm
      (qualifyingDrivers tiedDriversScholar) := by
    rw [hq]
    exact List.Perm.swap _ _ []
  have hsorted :
      ([⟨"contact gap", 0.6⟩, ⟨"inactivity", 0.6⟩] : List Driver).Sorted
        driverGE := by
    simp [List.sorted_cons, driverGE]
  have h06 := h tiedDriversScholar
    [⟨"contact gap", 0.6⟩, ⟨"inactivity", 0.6⟩] ⟨hperm, hsorted⟩ 0.6
  rw [hq] at h06
  simp [List.filter] at h06

/-- Claim C5 (amended): the driver analyzer sorts the qualifying terms by
descending magnitude — every possible qsort output is a permutation of the
qualifying list whose values are non-increasing, and such an output exists —
but terms of equal magnitude are not guaranteed to appear in declaration
order. -/
theorem driver_sort_desc :
    (∀ s : Scholar, ∃ output, sortsDriversDesc (qualifyingDrivers s) output)
    ∧ (∀ (s : Scholar) (output : List Driver),
        sortsDriversDesc (qualifyingDrivers s) output →
        output.Perm (qualifyingDrivers s)
        ∧ ∀ (i j : Fin output.length), i ≤ j →
            (output.get j).value ≤ (output.get i).value) := by
  constructor
  · intro s
    exact ⟨List.insertionSort driverGE (qualifyingDrivers s),
      List.perm_insertionSort driverGE (qualifyingDrivers s),
      List.sorted_insertionSort driverGE (qualifyingDrivers s)⟩
  · rintro s output ⟨hperm, hsorted⟩
    exact ⟨hperm, fun i j hij => hsorted.rel_get_of_le hij⟩

/-- A scholar with no qualifying driver: every term is 0. -/
def perfectScholar : Scholar :=
  { id := "p", name := "P", cohort := "c"
    days_inactive := 0, attendance_rate := 100, engagement_score := 100
    gpa := 4, last_contact_days := 0, survey_score := 100
    open_flags := 0, risk_score := 0 }

/-- Witness for C5: the empty list is a legal sort result for
`perfectScholar`, whose qualifying-driver list is empty. -/
theorem driver_sort_desc_witness :
    ([] : List Driver).Perm (qualifyingDrivers perfectScholar) :=
  (driver_sort_desc.2 perfectScholar []
    ⟨by
      have hq : qualifyingDrivers perfectScholar = [] := by
        norm_num [qualifyingDrivers, driverTerms, clamp, perfectScholar,
          List.filter]
      rw [hq],
      List.sorted_nil⟩).1

/-- Claim C6: the driver analyzer never keeps a term with value ≤ 0.1, and
the "stable" sentinel is produced exactly when all seven additive terms have
value ≤ 0.1. -/
theorem drivers_materiality (s : Scholar) :
    (∀ d ∈ qualifyingDrivers s, ¬ d.value ≤ 0.1)
    ∧ (stableSentinel s = true ↔ ∀ d ∈ driverTerms s, d.value ≤ 0.1) := by
  constructor
  · intro d hd
    have hmem := List.of_mem_filter hd
    simp only [decide_eq_true_eq] at hmem
    linarith
  · unfold stableSentinel qualifyingDrivers
    rw [List.isEmpty_iff, List.filter_eq_nil_iff]
    constructor
    · intro h d hd
      have := h d hd
      simp only [decide_eq_true_eq] at this
      linarith
    · intro h d hd
      have := h d hd
      simp only [decide_eq_true_eq]
      linarith

/-- Witness for C6: the first qualifying driver of `tiedDriversScholar`
(inactivity, value 0.6) indeed has value above the materiality threshold. -/
theorem drivers_materiality_witness :
    ¬ (Driver.mk "inactivity" 0.6).value ≤ 0.1 :=
  (drivers_materiality tiedDriversScholar).1 ⟨"inactivity", 0.6⟩
    (by
      have hq : qualifyingDrivers tiedDriversScholar
          = [⟨"inactivity", 0.6⟩, ⟨"contact gap", 0.6⟩] := by
        norm_num [qualifyingDrivers, driverTerms, clamp, tiedDriversScholar,
          List.filter]
      rw [hq]
      exact List.mem_cons_self _ _)

/-- A freshly created cohort summary, as `find_or_create_cohort` initialises
it (main.c lines 170–176). -/
def initCohort (name : String) : CohortSummary :=
  { name := name, total := 0, high := 0, medium := 0, low := 0, avg_risk := 0 }

/-- The per-record updates the aggregation loop applies to its cohort's
summary (main.c lines 356–361): increment total, add the risk score into the
running sum, and bump exactly one tier counter according to `risk_tier`. -/
def tallyScholar (cs : CohortSummary) (s : Scholar) : CohortSummary :=
  let tier := risk_tier s.risk_score
  let cs1 := { cs with total := cs.total + 1, avg_risk := cs.avg_risk + s.risk_score }
  if tier = "high" then { cs1 with high := cs1.high + 1 }
  else if tier = "medium" then { cs1 with medium := cs1.medium + 1 }
  else { cs1 with low := cs1.low + 1 }

/-- One iteration of the aggregation loop (main.c lines 349–362):
`find_or_create_cohort` (main.c lines 163–179) scans the summary list for the
record's cohort name, updating the first match, and appends a fresh summary
when no entry matches; the loop body then applies the `tallyScholar`
updates. -/
def stepCohort : List CohortSummary → Scholar → List CohortSummary
  | [], s => [tallyScholar (initCohort s.cohort) s]
  | cs :: rest, s =>
    if cs.name = s.cohort then tallyScholar cs s :: rest
    else cs :: stepCohort rest s

/-- The whole aggregation loop folded over the scholar list, starting from
the empty summary list (main.c lines 346–362). -/
def foldCohorts (l : List Scholar) : List CohortSummary :=
  l.foldl stepCohort []

/-- First-match lookup of a cohort's total, the view `find_or_create_cohort`
has of the summary list. -/
def totalFor : List CohortSummary → String → ℕ
  | [], _ => 0
  | cs :: rest, n => if cs.name = n then cs.total else totalFor rest n

lemma tallyScholar_name (cs : CohortSummary) (s : Scholar) :
    (tallyScholar cs s).name = cs.name := by
  simp only [tallyScholar]
  split_ifs <;> rfl

lemma tallyScholar_total (cs : CohortSummary) (s : Scholar) :
    (tallyScholar cs s).total = cs.total + 1 := by
  simp only [tallyScholar]
  split_ifs <;> rfl

lemma tallyScholar_tiers (cs : CohortSummary) (s : Scholar) :
    (tallyScholar cs s).high + (tallyScholar cs s).medium + (tallyScholar cs s).low
      = cs.high + cs.medium + cs.low + 1 := by
  simp only [tallyScholar]
  split_ifs <;> simp <;> omega

lemma stepCohort_inv (acc : List CohortSummary) (s : Scholar)
    (h : ∀ cs ∈ acc, cs.high + cs.medium + cs.low = cs.total) :
    ∀ cs ∈ stepCohort acc s, cs.high + cs.medium + cs.low = cs.total := by
  induction acc with
  | nil =>
    intro cs hcs
    simp only [stepCohort, List.mem_singleton] at hcs
    subst hcs
    rw [tallyScholar_tiers, tallyScholar_total]
    simp [initCohort]
  | cons head tail ih =>
    intro cs hcs
    simp only [stepCohort] at hcs
    split_ifs at hcs with hh
    · rcases List.mem_cons.mp hcs with rfl | hmem
      · rw [tallyScholar_tiers, tallyScholar_total,
          h head (List.mem_cons_self _ _)]
      · exact h cs (List.mem_cons_of_mem _ hmem)
    · rcases List.mem_cons.mp hcs with rfl | hmem
      · exact h cs (List.mem_cons_self _ _)
      · exact ih (fun d hd => h d (List.mem_cons_of_mem _ hd)) cs hmem

lemma foldl_stepCohort_inv (l : List Scholar) (acc : List CohortSummary)
    (h : ∀ cs ∈ acc, cs.high + cs.medium + cs.low = cs.total) :
    ∀ cs ∈ l.foldl stepCohort acc, cs.high + cs.medium + cs.low = cs.total := by
  induction l generalizing acc with
  | nil => exact h
  | cons s rest ih => exact ih _ (stepCohort_inv acc s h)

lemma totalFor_step (acc : List CohortSummary) (s : Scholar) (n : String) :
    totalFor (stepCohort acc s) n
      = totalFor acc n + (if s.cohort = n then 1 else 0) := by
  induction acc with
  | nil =>
    simp only [stepCohort, totalFor, tallyScholar_name, initCohort]
    by_cases hc : s.cohort = n
    · rw [if_pos hc, if_pos hc, tallyScholar_total]
    · rw [if_neg hc, if_neg hc]
  | cons head tail ih =>
    simp only [stepCohort]
    by_cases hh : head.name = s.cohort
    · rw [if_pos hh]
      simp only [totalFor, tallyScholar_name]
      by_cases hn : head.name = n
      · rw [if_pos hn, if_pos hn, tallyScholar_total,
          if_pos (hh.symm.trans hn)]
      · rw [if_neg hn, if_neg hn, if_neg (fun h => hn (hh.trans h))]
        omega
    · rw [if_neg hh]
      simp only [totalFor]
      by_cases hn : head.name = n
      · rw [if_pos hn, if_pos hn,
          if_neg (fun h : s.cohort = n => hh (hn.trans h.symm))]
        omega
      · rw [if_neg hn, if_neg hn, ih]

lemma totalFor_foldl (l : List Scholar) (acc : List CohortSummary) (n : String) :
    totalFor (l.foldl stepCohort acc) n
      = totalFor acc n + l.countP (fun s => s.cohort == n) := by
  induction l generalizing acc with
  | nil => simp
  | cons s rest ih =>
    simp only [List.foldl_cons, List.countP_cons]
    rw [ih, totalFor_step]
    by_cases hc : s.cohort = n <;> simp [hc] <;> omega

lemma stepCohort_names (acc : List CohortSummary) (s : Scholar) :
    (stepCohort acc s).map CohortSummary.name
      = if s.cohort ∈ acc.map CohortSummary.name
        then acc.map CohortSummary.name
        else acc.map CohortSummary.name ++ [s.cohort] := by
  induction acc with
  | nil => simp [stepCohort, tallyScholar_name, initCohort]
  | cons head tail ih =>
    simp only [stepCohort, List.map_cons]
    by_cases hh : head.name = s.cohort
    · rw [if_pos hh]
      simp [tallyScholar_name, hh, List.mem_cons]
    · rw [if_neg hh]
      simp only [List.map_cons, ih]
      by_cases hm : s.cohort ∈ tail.map CohortSummary.name
      · rw [if_pos hm, if_pos (List.mem_cons.mpr (Or.inr hm))]
      · rw [if_neg hm,
          if_neg (fun h => (List.mem_cons.mp h).elim
            (fun he => hh he.symm) hm)]
        simp

lemma foldl_stepCohort_nodup (l : List Scholar) (acc : List CohortSummary)
    (h : (acc.map CohortSummary.name).Nodup) :
    ((l.foldl stepCohort acc).map CohortSummary.name).Nodup := by
  induction l generalizing acc with
  | nil => exact h
  | cons s rest ih =>
    refine ih _ ?_
    rw [stepCohort_names]
    split_ifs with hm
    · exact h
    · simp [List.nodup_append, h, hm]

lemma totalFor_of_mem (acc : List CohortSummary)
    (h : (acc.map CohortSummary.name).Nodup) (cs : CohortSummary)
    (hcs : cs ∈ acc) : totalFor acc cs.name = cs.total := by
  induction acc with
  | nil => cases hcs
  | cons head tail ih =>
    simp only [totalFor]
    rcases List.mem_cons.mp hcs with rfl | hmem
    · rw [if_pos rfl]
    · have hn : head.name ≠ cs.name := by
        intro he
        have : head.name ∈ tail.map CohortSummary.name :=
          he ▸ List.mem_map_of_mem CohortSummary.name hmem
        exact (List.nodup_cons.mp h).1 this
      rw [if_neg hn]
      exact ih (List.nodup_cons.mp h).2 hmem

/-- Claim C3: for every cohort summary produced by folding any finite
sequence of scored records, high + medium + low equals total, and total
equals the number of records of that cohort folded in. -/
theorem cohort_summary_invariant (l : List Scholar) (cs : CohortSummary)
    (hcs : cs ∈ foldCohorts l) :
    cs.high + cs.medium + cs.low = cs.total
    ∧ cs.total = l.countP (fun s => s.cohort == cs.name) := by
  refine ⟨foldl_stepCohort_inv l [] (by simp) cs hcs, ?_⟩
  have hnodup : ((foldCohorts l).map CohortSummary.name).Nodup :=
    foldl_stepCohort_nodup l [] (by simp)
  have h1 : totalFor (foldCohorts l) cs.name = cs.total :=
    totalFor_of_mem _ hnodup cs hcs
  have h2 := totalFor_foldl l [] cs.name
  rw [foldCohorts] at h1
  rw [h1] at h2
  simpa [totalFor] using h2

/-- Witness for C3: folding the single worked-example record produces one
summary, and the theorem's two equations hold for it. -/
theorem cohort_summary_invariant_witness :
    (tallyScholar (initCohort exampleScholar.cohort) exampleScholar).high
      + (tallyScholar (initCohort exampleScholar.cohort) exampleScholar).medium
      + (tallyScholar (initCohort exampleScholar.cohort) exampleScholar).low
      = (tallyScholar (initCohort exampleScholar.cohort) exampleScholar).total
    ∧ (tallyScholar (initCohort exampleScholar.cohort) exampleScholar).total
      = List.countP
          (fun s => s.cohort
            == (tallyScholar (initCohort exampleScholar.cohort) exampleScholar).name)
          [exampleScholar] :=
  cohort_summary_invariant [exampleScholar]
    (tallyScholar (initCohort exampleScholar.cohort) exampleScholar)
    (by simp [foldCohorts, stepCohort])

/-- The cohort-filter step of the loading loop (main.c lines 281–286): a
parsed record is kept when no -cohort filter was given or when its cohort
matches the filter. -/
def loadedRecords (rows : List Scholar) (cohortFilter : Option String) :
    List Scholar :=
  rows.filter (fun s =>
    match cohortFilter with
    | none => true
    | some c => s.cohort == c)

/-- Records selected by the export loop (main.c lines 316–336): every scored
record whose risk_score is not below min_risk.  The loop walks the whole
sorted array; no limit is applied. -/
def exportSelect (l : List Scholar) (minRisk : ℚ) : List Scholar :=
  l.filter (fun s => decide (¬ s.risk_score < minRisk))

/-- The action-queue loop shared by the JSON renderer (main.c lines 422–441)
and the text renderer (main.c lines 494–511): walk the sorted records while
`printed < limit`, skipping records with risk_score below min_risk and
counting each printed record. -/
def queueLoop : List Scholar → ℚ → ℤ → ℤ → List Scholar
  | [], _, _, _ => []
  | s :: rest, minRisk, limit, printed =>
    if printed < limit then
      if s.risk_score < minRisk then queueLoop rest minRisk limit printed
      else s :: queueLoop rest minRisk limit (printed + 1)
    else []

/-- The action queue: the queue loop started with `printed = 0`. -/
def queueSelect (l : List Scholar) (minRisk : ℚ) (limit : ℤ) : List Scholar :=
  queueLoop l minRisk limit 0

lemma queueLoop_eq_take (minRisk : ℚ) (limit : ℤ) (l : List Scholar) :
    ∀ printed : ℤ, queueLoop l minRisk limit printed
      = (exportSelect l minRisk).take (limit - printed).toNat := by
  induction l with
  | nil => intro printed; simp [queueLoop, exportSelect]
  | cons s rest ih =>
    intro printed
    simp only [queueLoop, exportSelect, List.filter_cons]
    by_cases hp : printed < limit
    · rw [if_pos hp]
      by_cases hr : s.risk_score < minRisk
      · rw [if_pos hr]
        have hd : decide (¬ s.risk_score < minRisk) = false := by simp [hr]
        rw [hd]
        simpa [exportSelect] using ih printed
      · rw [if_neg hr]
        have hd : decide (¬ s.risk_score < minRisk) = true := by simp [hr]
        rw [hd]
        have ht : (limit - printed).toNat = (limit - (printed + 1)).toNat + 1 := by
          omega
        rw [ih (printed + 1)]
        simp [exportSelect, ht, List.take_succ_cons]
    · rw [if_neg hp]
      have ht : (limit - printed).toNat = 0 := by omega
      simp [ht]

/-- Claim C10 as stated: the export path and the action-queue path select the
same subsequence for every record set, threshold and limit. -/
def exportQueueSameClaim : Prop :=
  ∀ (l : List Scholar) (minRisk : ℚ) (limit : ℤ),
    exportSelect l minRisk = queueSelect l minRisk limit

/-- Counterexample for C10: with two records of risk 50, threshold 0 and
limit 1, the export loop keeps both records while the action queue stops
after one — the export path applies no limit. -/
theorem export_queue_counterexample : ¬ exportQueueSameClaim := by
  intro h
  have h2 := h [scholarA, scholarB] 0 1
  rw [queueSelect, queueLoop_eq_take] at h2
  have he : exportSelect [scholarA, scholarB] 0 = [scholarA, scholarB] := by
    norm_num [exportSelect, List.filter, scholarA, scholarB]
  rw [he] at h2
  simp at h2

/-- Claim C10 (amended): both paths apply the very same min-risk filter — the
action queue is exactly the first `limit` elements of the export selection —
but the limit is applied only by the action-queue path, so the two paths
select the same subsequence precisely when the number of records passing the
filter is at most the limit. -/
theorem export_queue_filter_limit :
    (∀ (l : List Scholar) (minRisk : ℚ) (limit : ℤ),
      queueSelect l minRisk limit = (exportSelect l minRisk).take limit.toNat)
    ∧ (∀ (l : List Scholar) (minRisk : ℚ) (limit : ℤ),
      (exportSelect l minRisk).length ≤ limit.toNat →
      exportSelect l minRisk = queueSelect l minRisk limit) := by
  have key : ∀ (l : List Scholar) (minRisk : ℚ) (limit : ℤ),
      queueSelect l minRisk limit
        = (exportSelect l minRisk).take limit.toNat := by
    intro l minRisk limit
    have h0 := queueLoop_eq_take minRisk limit l 0
    simpa [queueSelect] using h0
  exact ⟨key, fun l minRisk limit h => by
    rw [key, List.take_of_length_le h]⟩

/-- Witness for C10: on a singleton record set with threshold 0 and the
default limit 10, both paths select the same records. -/
theorem export_queue_filter_limit_witness :
    exportSelect [exampleScholar] 0 = queueSelect [exampleScholar] 0 10 :=
  export_queue_filter_limit.2 [exampleScholar] 0 10
    (by norm_num [exportSelect, List.filter, exampleScholar])

/-- The two outcome shapes a run can end in once parsing succeeded:
`noRecords` is the "No records loaded." early exit with status 1 (main.c
lines 298–301); `report b` is a normal report, where `b` records whether the
text renderer printed "No scholars met the minimum risk threshold." because
the action queue came out empty (main.c lines 512–514). -/
inductive RunOutcome where
  | noRecords : RunOutcome
  | report : Bool → RunOutcome
deriving DecidableEq, Repr

/-- Outcome skeleton of a run of `main` over already-parsed rows: the cohort
filter is applied while loading (main.c lines 281–286); if no record
survives, the run ends in `noRecords` (main.c lines 298–301) before any
sorting; otherwise the run reports, with the empty-queue flag computed from
the sorted records (`sorted` stands for the qsort output of the loaded
records). -/
def runOutcome (rows : List Scholar) (cohortFilter : Option String)
    (minRisk : ℚ) (limit : ℤ) (sorted : List Scholar) : RunOutcome :=
  let loaded := loadedRecords rows cohortFilter
  if loaded.isEmpty then RunOutcome.noRecords
  else RunOutcome.report (queueSelect sorted minRisk limit).isEmpty

/-- Claim C9 as stated: whenever records exist but a filter excludes them
all, the outcome differs from the outcome of a run with zero usable
records. -/
def filteredDistinctClaim : Prop :=
  ∀ (rows : List Scholar) (cohortFilter : Option String) (minRisk : ℚ)
      (limit : ℤ) (sorted : List Scholar),
    rows ≠ [] → loadedRecords rows cohortFilter = [] →
    runOutcome rows cohortFilter minRisk limit sorted
      ≠ runOutcome [] none minRisk limit []

/-- Counterexample for C9: when the -cohort filter excludes every record, the
run hits the very same "No records loaded." exit as a run on an empty
dataset — the cohort filter is applied during loading, so the two conditions
are indistinguishable. -/
theorem filtered_distinct_counterexample : ¬ filteredDistinctClaim := by
  intro h
  have hload : loadedRecords [scholarA] (some "nope") = [] := by
    simp [loadedRecords, List.filter, scholarA]
  have hne := h [scholarA] (some "nope") 0 10 [] (by simp) hload
  apply hne
  have h1 : runOutcome [scholarA] (some "nope") 0 10 [] =
      RunOutcome.noRecords := by
    simp [runOutcome, hload]
  have h2 : runOutcome [] none 0 10 [] = RunOutcome.noRecords := by
    simp [runOutcome, loadedRecords]
  rw [h1, h2]

/-- Claim C9 (amended): the min-risk filter does produce a distinct outcome —
when loaded records exist but all of them fall below the threshold, the run
reports an empty action queue, which differs from the no-records outcome —
but when every record is excluded by the cohort filter, the outcome is
exactly the no-records outcome of an empty dataset. -/
theorem empty_queue_distinct_from_no_records
    (rows : List Scholar) (cohortFilter : Option String) (minRisk : ℚ)
    (limit : ℤ) (sorted : List Scholar)
    (hne : loadedRecords rows cohortFilter ≠ [])
    (hall : ∀ s ∈ sorted, s.risk_score < minRisk) :
    runOutcome rows cohortFilter minRisk limit sorted
      = RunOutcome.report true
    ∧ runOutcome rows cohortFilter minRisk limit sorted
      ≠ runOutcome [] none minRisk limit [] := by
  have hfilter : exportSelect sorted minRisk = [] := by
    rw [exportSelect, List.filter_eq_nil_iff]
    intro s hs
    simp [hall s hs]
  have hq : queueSelect sorted minRisk limit = [] := by
    rw [queueSelect, queueLoop_eq_take, hfilter, List.take_nil]
  have hmain : runOutcome rows cohortFilter minRisk limit sorted
      = RunOutcome.report true := by
    unfold runOutcome
    rw [if_neg (by simp [List.isEmpty_iff, hne]), hq]
    rfl
  refine ⟨hmain, ?_⟩
  rw [hmain]
  have h2 : runOutcome [] none minRisk limit [] = RunOutcome.noRecords := by
    simp [runOutcome, loadedRecords]
  rw [h2]
  simp

/-- Witness for C9: one loaded record of risk 50 with threshold 100 yields
the empty-queue report, distinct from the no-records outcome. -/
theorem empty_queue_distinct_witness :
    runOutcome [scholarA] none 100 10 [scholarA] = RunOutcome.report true
    ∧ runOutcome [scholarA] none 100 10 [scholarA]
      ≠ runOutcome [] none 100 10 [] :=
  empty_queue_distinct_from_no_records [scholarA] none 100 10 [scholarA]
    (by simp [loadedRecords, List.filter])
    (by
      intro s hs
      rw [List.mem_singleton] at hs
      subst hs
      norm_num [scholarA])
